import Mathlib

/-!
Verification development for the SpotiFLAC download-orchestration service.

The definitions below are a shallow embedding of the repository's core:
* `app/core/utils.py` — `sanitize_component`, `render_path`, `clamp_progress`;
* `app/core/models.py` — enums, `TrackMetadata.as_context`, the job record;
* `app/infra/storage.py` — `StorageManager.build_track_path`;
* `app/core/service.py` — `DownloadService` (job registry, worker loop,
  `_execute_job` track loop, cancellation, subscriptions).

Python strings stay `String`, ints become `Nat`/`Int` (all counters in the
code are non-negative: they start at 0 and only get `+= 1`), `datetime`
values become an abstract `Nat` clock supplied by the environment, and
`float` progress becomes `ℚ` (the code only ever stores `done / total`
clamped to `[0, 1]`; exact rationals model that arithmetic).  Fallible code
returns `Except`.  Filesystem paths are lists of path components.
-/

/-- `JobStatus` from `app/core/models.py`: state of a download job. -/
inductive JobStatus
  | pending
  | running
  | completed
  | failed
  | cancelled
deriving DecidableEq, Repr

/-- `JobStatus.finished` property from `app/core/models.py`. -/
def JobStatus.finished : JobStatus → Bool
  | .completed => true
  | .failed => true
  | .cancelled => true
  | _ => false

/-- `DownloadMode` layout-mode enum.  The copy of `app/core/models.py` in
the tree does not declare it, but `service.py`, `storage.py`,
`app_config.py` and `api/schemas.py` all import it from there and use the
two members `BY_ARTIST` / `SINGLE_FOLDER`.  Modelled from the spec:
"mode (directory-layout strategy: group-by-artist vs single-folder)". -/
inductive DownloadMode
  | by_artist
  | single_folder
deriving DecidableEq, Repr

/-- A context value for template substitution: Python passes strings and
ints (`track`) into `str.format`. -/
inductive CtxVal
  | str (s : String)
  | int (n : Nat)
deriving DecidableEq, Repr

/-- One parsed item of a Python format-string template
(`"{artist}/{album}/{track:02d} - {title}.{ext}"`).  `lit` is literal text;
`field name spec` is a replacement field, where `spec = some p` models a
zero-padding int format spec `:0pd` and `none` a bare `{name}`.  The
repository manipulates templates as raw strings and lets `str.format`
parse them; the embedding works on the parsed form. -/
inductive TmplItem
  | lit (s : String)
  | field (name : String) (spec : Option Nat)
deriving DecidableEq, Repr

/-- A template is the parsed sequence of its items. -/
abbrev Tmpl := List TmplItem

/-- A substitution context: Python `dict[str, object]` (unique keys in the
code; `find?` returns the first binding like a dict lookup). -/
abbrev Ctx := List (String × CtxVal)

/-- Dict lookup on a context. -/
def lookupCtx (ctx : Ctx) (k : String) : Option CtxVal :=
  (ctx.find? (fun p => p.1 = k)).map Prod.snd

instance {ε α : Type} [DecidableEq ε] [DecidableEq α] : DecidableEq (Except ε α) :=
  fun x y =>
    match x, y with
    | .ok a, .ok b =>
      if h : a = b then isTrue (by rw [h]) else isFalse (by simp [h])
    | .error e, .error f =>
      if h : e = f then isTrue (by rw [h]) else isFalse (by simp [h])
    | .ok _, .error _ => isFalse (by simp)
    | .error _, .ok _ => isFalse (by simp)

/-- Characters matched by `INVALID_PATH_CHARS` in `app/core/utils.py`. -/
def isInvalidPathChar (c : Char) : Bool :=
  c = '<' || c = '>' || c = ':' || c = '"' || c = '/' || c = '\\' ||
    c = '|' || c = '?' || c = '*'

/-- Left-to-right non-overlapping replacement of `".."` by `"_"`
(`clean.replace("..", "_")`). -/
def replaceDotsAux : List Char → List Char
  | '.' :: '.' :: rest => '_' :: replaceDotsAux rest
  | c :: rest => c :: replaceDotsAux rest
  | [] => []

/-- Collapse every whitespace run to a single space
(`MULTI_SPACES.sub(" ", clean)`); the `Bool` flag records whether the
previous character was whitespace. -/
def collapseSpacesAux : Bool → List Char → List Char
  | _, [] => []
  | prev, c :: rest =>
    if c.isWhitespace then
      if prev then collapseSpacesAux true rest
      else ' ' :: collapseSpacesAux true rest
    else c :: collapseSpacesAux false rest

/-- Python `str.strip()` on a character list. -/
def stripChars (cs : List Char) : List Char :=
  ((cs.dropWhile Char.isWhitespace).reverse.dropWhile Char.isWhitespace).reverse

/-- `sanitize_component` from `app/core/utils.py`: replace invalid path
characters by `_`, replace `".."` by `_`, collapse whitespace, strip, and
fall back to `"Unknown"` when empty. -/
def sanitize_component (value : String) : String :=
  let cleaned := value.data.map (fun c => if isInvalidPathChar c then '_' else c)
  let cleaned := replaceDotsAux cleaned
  let collapsed := collapseSpacesAux false cleaned
  let stripped := stripChars collapsed
  if stripped.isEmpty then "Unknown" else String.mk stripped

/-- Zero padding of an int rendered through a `:0pd` format spec. -/
def padNum (pad : Nat) (n : Nat) : String :=
  let s := toString n
  if s.length < pad then String.mk (List.replicate (pad - s.length) '0') ++ s
  else s

/-- Substitution of one context value through a replacement field's format
spec (`str.format` semantics for the specs the code uses: none, `:02d`). -/
def formatVal (spec : Option Nat) : CtxVal → String
  | .str s => s
  | .int n => match spec with
    | some pad => padNum pad n
    | none => toString n

/-- Substitute one template item; a replacement field whose name is not a
key of the context raises (`str.format` raises `KeyError(name)`). -/
def renderItem (ctx : Ctx) : TmplItem → Except String String
  | .lit s => .ok s
  | .field name spec =>
    match lookupCtx ctx name with
    | none => .error name
    | some v => .ok (formatVal spec v)

/-- `template.format(**safe_context)`: concatenate the substituted items,
propagating the first missing-key error. -/
def formatTmpl (ctx : Ctx) : Tmpl → Except String String
  | [] => .ok ""
  | item :: rest =>
    match renderItem ctx item with
    | .error k => .error k
    | .ok s =>
      match formatTmpl ctx rest with
      | .error k => .error k
      | .ok r => .ok (s ++ r)

/-- The `safe_context` construction in `render_path`: every string value
is sanitized, other values pass through. -/
def sanitizeCtx (ctx : Ctx) : Ctx :=
  ctx.map (fun p =>
    match p.2 with
    | .str s => (p.1, CtxVal.str (sanitize_component s))
    | v => (p.1, v))

/-- Split a character list at `/` separators. -/
def splitPartsAux : List Char → List Char → List String
  | [], acc => [String.mk acc.reverse]
  | c :: rest, acc =>
    if c = '/' then String.mk acc.reverse :: splitPartsAux rest []
    else splitPartsAux rest (c :: acc)

/-- `Path(rendered)` decomposition into components: pathlib drops empty
and `"."` segments, and stripping a leading `/` (the absolute-path guard
in `render_path`) is dropping the empty component before it. -/
def splitParts (s : String) : List String :=
  (splitPartsAux s.data []).filter (fun c => c ≠ "" && c ≠ ".")

/-- `render_path` from `app/core/utils.py`: sanitize the string context
values, substitute them into the template, and return the resulting
relative path (as its list of components). -/
def render_path (tmpl : Tmpl) (ctx : Ctx) : Except String (List String) :=
  match formatTmpl (sanitizeCtx ctx) tmpl with
  | .error k => .error k
  | .ok rendered => .ok (splitParts rendered)

/-- `clamp_progress` from `app/core/utils.py`. -/
def clamp_progress (done total : Int) : ℚ :=
  if total ≤ 0 then 0
  else max 0 (min 1 ((done : ℚ) / (total : ℚ)))

/-- `TrackMetadata` from `app/core/models.py`. -/
structure TrackMetadata where
  title : String
  artists : String
  album : String
  external_url : String
  isrc : String
  duration_ms : Nat := 0
  track_number : Option Nat := none
  release_date : Option String := none
deriving DecidableEq, Repr

/-- `TrackMetadata.as_context`: the substitution dict for path templates
(`self.track_number or 0` is `getD 0`: `None` and `0` are both falsy). -/
def TrackMetadata.as_context (t : TrackMetadata) : Ctx :=
  [("artist", .str t.artists),
   ("album", .str t.album),
   ("title", .str t.title),
   ("track", .int (t.track_number.getD 0)),
   ("ext", .str "flac")]

/-- Python `a or b` on an optional string (`None` and `""` are falsy). -/
def orStr (a : Option String) (b : String) : String :=
  match a with
  | some s => if s = "" then b else s
  | none => b

/-- Python `a or None` on an optional string. -/
def orNone (a : Option String) : Option String :=
  match a with
  | some s => if s = "" then none else some s
  | none => none

/-- The job record.  Fields follow `DownloadJob` in `app/core/models.py`
together with the three fields every consumer of that record relies on
(`mode`, `downloaded_files`, `collection_name`, used by `service.py`,
`storage.py` and declared in `api/schemas.py::JobModel` / spec §3) — the
checked-in `models.py` is missing them, which claim C9 records.
`path_template` is kept in parsed form (see `Tmpl`). -/
structure DownloadJob where
  id : String
  provider : String
  store : String
  source_url : String
  quality : Option String
  path_template : Tmpl
  mode : DownloadMode
  created_at : Nat
  updated_at : Nat
  finished_at : Option Nat := none
  status : JobStatus := .pending
  progress : ℚ := 0
  total_tracks : Nat := 0
  completed_tracks : Nat := 0
  failed_tracks : Nat := 0
  message : Option String := none
  error : Option String := none
  output_dir : String := ""
  downloaded_files : List String := []
  collection_name : Option String := none
deriving DecidableEq, Repr

/-- The `DownloadJob(...)` construction in `DownloadService.submit_job`
(all counters zero, status `pending`, fresh timestamps). -/
def mkJob (id provider store url : String) (quality : Option String)
    (template : Tmpl) (output_dir : String) (mode : DownloadMode)
    (now : Nat) : DownloadJob :=
  { id := id, provider := provider, store := store, source_url := url,
    quality := quality, path_template := template, mode := mode,
    created_at := now, updated_at := now, output_dir := output_dir }

/-- `StorageManager` from `app/infra/storage.py`, reduced to the data
`build_track_path` reads (`download_dir` as path components). -/
structure StorageManager where
  download_dir : List String
  default_template : Tmpl
deriving DecidableEq, Repr

/-- Whether the first list is a prefix of the second. -/
def listIsPrefixOf : List Char → List Char → Bool
  | [], _ => true
  | _ :: _, [] => false
  | a :: as, b :: bs => a == b && listIsPrefixOf as bs

/-- The check `"\x7bplaylist" in template` of `build_track_path`, on the
parsed template: some replacement field's name starts with `playlist`
(field names are what follow the opening brace in the raw string). -/
def tmplReferencesPlaylist (tmpl : Tmpl) : Bool :=
  tmpl.any (fun item =>
    match item with
    | .field name _ => listIsPrefixOf "playlist".data name.data
    | .lit _ => false)

/-- `template = job.path_template or self.default_template` (an empty
template string is falsy). -/
def effectiveTemplate (sm : StorageManager) (job : DownloadJob) : Tmpl :=
  if job.path_template.isEmpty then sm.default_template else job.path_template

/-- `playlist_name = job.collection_name or job.message or "Playlist"`. -/
def playlistName (job : DownloadJob) : String :=
  orStr job.collection_name (orStr job.message "Playlist")

/-- The context `build_track_path` passes to `render_path`: the track
context, with `context["playlist"] = playlist_name` added exactly when
the template mentions `playlist` or the job is in single-folder mode. -/
def trackRenderCtx (sm : StorageManager) (job : DownloadJob)
    (track : TrackMetadata) : Ctx :=
  let template := effectiveTemplate sm job
  let context := track.as_context
  if tmplReferencesPlaylist template || job.mode = DownloadMode.single_folder then
    context ++ [("playlist", .str (playlistName job))]
  else context

/-- `StorageManager.build_track_path` from `app/infra/storage.py`: render
the relative path, prepend the sanitized playlist directory when the
template itself does not mention `playlist`, and root the result under
`download_dir`.  A missing template field propagates as an error
(`str.format` raises out of `build_track_path`). -/
def build_track_path (sm : StorageManager) (job : DownloadJob)
    (track : TrackMetadata) : Except String (List String) :=
  let template := effectiveTemplate sm job
  match render_path template (trackRenderCtx sm job track) with
  | .error k => .error k
  | .ok relative =>
    let relative :=
      if playlistName job ≠ "" && !tmplReferencesPlaylist template then
        sanitize_component (playlistName job) :: relative
      else relative
    .ok (sm.download_dir ++ relative)

/-- What `store.download_track` does for one track: returns normally,
raises a non-cancellation exception, or raises `JobCancelled` (the
cancellation predicate honoured mid-download). -/
inductive ProviderOutcome
  | ok
  | err (msg : String)
  | cancel
deriving DecidableEq, Repr

/-- The environment one loop iteration of `_execute_job` observes for its
track: whether `track.isrc` is non-empty, whether the computed
`final_path` already exists on disk, what the store provider would do if
invoked, and the path of the final file relative to the download root
(`final_path.relative_to(download_dir)`). -/
structure TrackSpec where
  hasIsrc : Bool
  fileExists : Bool
  outcome : ProviderOutcome
  relPath : String
deriving DecidableEq, Repr

/-- How the track loop ends: all tracks processed, or `JobCancelled`
raised out of it. -/
inductive LoopOut
  | done
  | cancelledSig
deriving DecidableEq, Repr

/-- Result of the track loop: how it ended, the job record, the snapshots
notified along the way (in order), and the number of
`store.download_track` invocations. -/
structure LoopState where
  out : LoopOut
  job : DownloadJob
  trace : List DownloadJob
  calls : Nat
deriving DecidableEq, Repr

/-- The `state.cancel_requested` flag as the loop observes it: the flag is
only ever set (never cleared), so `some k` means every check from track
index `k` on sees it set, `none` that no check ever does. -/
def cancelSeen (cancelFrom : Option Nat) (i : Nat) : Bool :=
  match cancelFrom with
  | some k => k ≤ i
  | none => false

/-- Missing-ISRC branch of the loop body: `job.failed_tracks += 1;
job.touch()` (no progress recomputation in this branch). -/
def jobNoIsrc (now : Nat) (job : DownloadJob) : DownloadJob :=
  { job with failed_tracks := job.failed_tracks + 1, updated_at := now }

/-- Pre-existing-file branch: `job.completed_tracks += 1`, progress
recomputed, `job.touch()`. -/
def jobFileExists (now : Nat) (job : DownloadJob) : DownloadJob :=
  { job with completed_tracks := job.completed_tracks + 1,
             progress := clamp_progress (job.completed_tracks + 1 : Nat) job.total_tracks,
             updated_at := now }

/-- Successful download: `completed_tracks += 1`, relative path appended
to `downloaded_files` unless already present, then the `finally` block
(progress recomputed, `touch`). -/
def jobDownloadOk (now : Nat) (rel : String) (job : DownloadJob) : DownloadJob :=
  { job with completed_tracks := job.completed_tracks + 1,
             downloaded_files :=
               if rel ∈ job.downloaded_files then job.downloaded_files
               else job.downloaded_files ++ [rel],
             progress := clamp_progress (job.completed_tracks + 1 : Nat) job.total_tracks,
             updated_at := now }

/-- Non-cancellation provider exception: `failed_tracks += 1`, then the
`finally` block. -/
def jobDownloadErr (now : Nat) (job : DownloadJob) : DownloadJob :=
  { job with failed_tracks := job.failed_tracks + 1,
             progress := clamp_progress (job.completed_tracks : Nat) job.total_tracks,
             updated_at := now }

/-- `JobCancelled` re-raised from the provider: counters untouched, but
the `finally` block still recomputes progress, touches and notifies. -/
def jobProvCancel (now : Nat) (job : DownloadJob) : DownloadJob :=
  { job with progress := clamp_progress (job.completed_tracks : Nat) job.total_tracks,
             updated_at := now }

/-- The `for track in tracks:` loop of `DownloadService._execute_job`
(lines 242-284), at loop index `i`.  Each notified snapshot is recorded in
the trace; the pre-track cancellation check raises `JobCancelled` without
notifying, exactly as the code does. -/
def runTracks (now : Nat) (cancelFrom : Option Nat) :
    Nat → List TrackSpec → DownloadJob → LoopState
  | _, [], job => ⟨.done, job, [], 0⟩
  | i, t :: rest, job =>
    if cancelSeen cancelFrom i then ⟨.cancelledSig, job, [], 0⟩
    else if !t.hasIsrc then
      let j := jobNoIsrc now job
      let s := runTracks now cancelFrom (i + 1) rest j
      ⟨s.out, s.job, j :: s.trace, s.calls⟩
    else if t.fileExists then
      let j := jobFileExists now job
      let s := runTracks now cancelFrom (i + 1) rest j
      ⟨s.out, s.job, j :: s.trace, s.calls⟩
    else
      match t.outcome with
      | .ok =>
        let j := jobDownloadOk now t.relPath job
        let s := runTracks now cancelFrom (i + 1) rest j
        ⟨s.out, s.job, j :: s.trace, s.calls + 1⟩
      | .err _ =>
        let j := jobDownloadErr now job
        let s := runTracks now cancelFrom (i + 1) rest j
        ⟨s.out, s.job, j :: s.trace, s.calls + 1⟩
      | .cancel =>
        let j := jobProvCancel now job
        ⟨.cancelledSig, j, [j], 1⟩

/-- What `self.playlist_provider.resolve(job.source_url)` produced, with
each track paired with the per-track environment the loop will see. -/
structure ResolvedInput where
  name : Option String
  source_type : String
  tracks : List TrackSpec
deriving DecidableEq, Repr

/-- The collaborators and ambient state one `_execute_job` run observes:
whether `self.store_providers` has the job's store, the resolution result
(`Except` for a raised provider error), when the cancellation flag is
seen, the download root, and the clock. -/
structure ExecEnv where
  storeAvailable : Bool
  resolve : Except String ResolvedInput
  cancelFrom : Option Nat
  download_dir : String
  now : Nat

/-- `ProviderError(f"Провайдер ... недоступен")` for a missing store. -/
def storeMissingMsg (store : String) : String :=
  "Провайдер " ++ store ++ " недоступен"

/-- `ProviderError("Список треков пуст")` for an empty track list. -/
def emptyTracksMsg : String := "Список треков пуст"

/-- How `_execute_job` returned to `_worker`. -/
inductive ExecOutcomeKind
  | ok
  | cancelled
  | jobError (msg : String)
deriving DecidableEq, Repr

/-- Result of one `_execute_job` run. -/
structure ExecResult where
  outcome : ExecOutcomeKind
  job : DownloadJob
  trace : List DownloadJob
  calls : Nat
deriving DecidableEq, Repr

/-- Lines 234-238 of `_execute_job`: `total_tracks`, `message`,
`collection_name` and `output_dir` set from the resolved source
(`resolved.name or resolved.source_type`, `resolved.name or None`). -/
def setupJob (env : ExecEnv) (ri : ResolvedInput) (job : DownloadJob) : DownloadJob :=
  { job with total_tracks := ri.tracks.length,
             message := some (orStr ri.name ri.source_type),
             collection_name := orNone ri.name,
             output_dir := env.download_dir,
             updated_at := env.now }

/-- `DownloadService._execute_job` (lines 223-284): missing store and
empty track list raise before `total_tracks` is assigned; otherwise the
job is set up from the resolved source, notified, and the track loop
runs. -/
def execute_job (env : ExecEnv) (job : DownloadJob) : ExecResult :=
  if !env.storeAvailable then ⟨.jobError (storeMissingMsg job.store), job, [], 0⟩
  else
    match env.resolve with
    | .error msg => ⟨.jobError msg, job, [], 0⟩
    | .ok ri =>
      if ri.tracks.isEmpty then ⟨.jobError emptyTracksMsg, job, [], 0⟩
      else
        let j1 := setupJob env ri job
        let s := runTracks env.now env.cancelFrom 0 ri.tracks j1
        match s.out with
        | .done => ⟨.ok, s.job, j1 :: s.trace, s.calls⟩
        | .cancelledSig => ⟨.cancelled, s.job, j1 :: s.trace, s.calls⟩

/-- `"Задача отменена"`, the message `_worker` writes on cancellation. -/
def cancelledJobMsg : String := "Задача отменена"

/-- The `except`/`else` arms of `_worker` (lines 201-216): terminal
status, `finished_at`, `error` for a job-level failure, `message` for a
cancellation. -/
def finalizeJob (now : Nat) (r : ExecResult) : DownloadJob :=
  match r.outcome with
  | .cancelled =>
    { r.job with status := .cancelled, message := some cancelledJobMsg,
                 finished_at := some now, updated_at := now }
  | .jobError msg =>
    { r.job with status := .failed, error := some msg,
                 finished_at := some now, updated_at := now }
  | .ok =>
    { r.job with status := .completed, finished_at := some now, updated_at := now }

/-- Result of a worker processing one job it picked up. -/
structure WorkerResult where
  job : DownloadJob
  trace : List DownloadJob
  calls : Nat
deriving DecidableEq, Repr

/-- The body of `DownloadService._worker` once a job in an eligible state
has been dequeued (lines 196-219): transition to `running`, notify, run
`_execute_job`, finalize, notify the terminal state.  The trace lists the
notified snapshots in order. -/
def worker_run (env : ExecEnv) (job : DownloadJob) : WorkerResult :=
  let jobR := { job with status := JobStatus.running, updated_at := env.now }
  let r := execute_job env jobR
  ⟨finalizeJob env.now r, jobR :: (r.trace ++ [finalizeJob env.now r]), r.calls⟩

/-- `JobState` from `app/core/service.py`: the job record, its subscriber
queues (kept abstract as handles), and the cancellation flag. -/
structure JobState where
  job : DownloadJob
  subscribers : List Nat := []
  cancel_requested : Bool := false
deriving DecidableEq, Repr

/-- `DownloadService`'s mutable state: the job registry `self._jobs`
(insertion-ordered dict as an association list) and the id queue
`self._queue`. -/
structure Service where
  jobs : List (String × JobState)
  queue : List String
deriving DecidableEq, Repr

/-- `self._jobs.get(job_id)`. -/
def lookupState (jobs : List (String × JobState)) (id : String) : Option JobState :=
  (jobs.find? (fun p => p.1 = id)).map Prod.snd

/-- Replace the entry of `id` in the registry. -/
def updateJobs (jobs : List (String × JobState)) (id : String) (st : JobState) :
    List (String × JobState) :=
  jobs.map (fun p => if p.1 = id then (p.1, st) else p)

/-- `DownloadService.get_job`: snapshot of the job, or `None` for an
unknown id (a snapshot of the embedded record is the record itself). -/
def get_job (s : Service) (id : String) : Option DownloadJob :=
  (lookupState s.jobs id).map JobState.job

/-- `DownloadService.list_jobs`: snapshots of every registered job. -/
def list_jobs (s : Service) : List DownloadJob :=
  s.jobs.map (fun p => p.2.job)

/-- `DownloadService.subscribe_job`: raises `KeyError(job_id)` for an
unknown id; otherwise registers the fresh queue handle `q` and returns the
snapshot immediately seeded into the queue. -/
def subscribe_job (s : Service) (id : String) (q : Nat) :
    Except String (Service × DownloadJob) :=
  match lookupState s.jobs id with
  | none => .error id
  | some st =>
    let st' : JobState := { st with subscribers := st.subscribers ++ [q] }
    .ok ({ s with jobs := updateJobs s.jobs id st' }, st.job)

/-- `DownloadService.unsubscribe_job`: silently a no-op for an unknown id;
otherwise removes the queue (`list.remove` with `ValueError`
suppressed). -/
def unsubscribe_job (s : Service) (id : String) (q : Nat) : Service :=
  match lookupState s.jobs id with
  | none => s
  | some st =>
    let st' : JobState := { st with subscribers := st.subscribers.erase q }
    { s with jobs := updateJobs s.jobs id st' }

/-- `"Отмена запрошена пользователем"`, the message `cancel_job` writes. -/
def cancelRequestedMsg : String := "Отмена запрошена пользователем"

/-- `DownloadService.cancel_job` (lines 174-183): `False` for an unknown
id; otherwise set the cancellation flag, update the message, touch, and
return `True`.  Status and `finished_at` are never written here. -/
def cancel_job (s : Service) (id : String) (now : Nat) : Service × Bool :=
  match lookupState s.jobs id with
  | none => (s, false)
  | some st =>
    let st' : JobState :=
      { st with cancel_requested := true,
                job := { st.job with message := some cancelRequestedMsg,
                                     updated_at := now } }
    ({ s with jobs := updateJobs s.jobs id st' }, true)

/-- The cancellation schedule `worker_run` uses for a job whose flag is
already set when the worker picks it up: every check sees it set. -/
def effCancelFrom (st : JobState) (env : ExecEnv) : Option Nat :=
  if st.cancel_requested then some 0 else env.cancelFrom

/-- One iteration of `DownloadService._worker` (lines 185-221): dequeue an
id (acknowledging it via `task_done` in all cases), skip it when the job
is missing or neither `pending` nor `failed`, and otherwise run the job
and store the result back in the registry. -/
def worker_step (env : ExecEnv) (s : Service) : Service :=
  match s.queue with
  | [] => s
  | id :: rest =>
    let s1 : Service := { s with queue := rest }
    match lookupState s1.jobs id with
    | none => s1
    | some st =>
      if st.job.status = JobStatus.pending ∨ st.job.status = JobStatus.failed then
        let r := worker_run { env with cancelFrom := effCancelFrom st env } st.job
        { s1 with jobs := updateJobs s1.jobs id { st with job := r.job } }
      else s1

/-- The field names of `JobSnapshot` as declared in the checked-in
`app/core/models.py` (lines 121-142), in declaration order. -/
def jobSnapshotFieldsSrc : List String :=
  ["id", "provider", "store", "source_url", "quality", "path_template",
   "created_at", "updated_at", "finished_at", "status", "progress",
   "total_tracks", "completed_tracks", "failed_tracks", "message",
   "error", "output_dir", "logs"]

/-- The field names of the snapshot shape every consumer expects: spec §6
and `api/schemas.py::JobModel` (lines 24-44), in declaration order. -/
def snapshotFieldsClaimed : List String :=
  ["id", "provider", "store", "source_url", "quality", "path_template",
   "mode", "created_at", "updated_at", "finished_at", "status",
   "progress", "total_tracks", "completed_tracks", "failed_tracks",
   "message", "error", "output_dir", "downloaded_files", "collection_name"]

/-- The field names of `JobModel` in `app/api/schemas.py`, the REST shape
built from job snapshots. -/
def jobModelFieldsSrc : List String :=
  ["id", "provider", "store", "source_url", "quality", "path_template",
   "mode", "created_at", "updated_at", "finished_at", "status",
   "progress", "total_tracks", "completed_tracks", "failed_tracks",
   "message", "error", "output_dir", "downloaded_files", "collection_name"]

/-- The per-snapshot invariant of spec §3: the counters never exceed the
total, and `progress` is exactly the clamped completion ratio. -/
def jobInv (j : DownloadJob) : Prop :=
  j.completed_tracks + j.failed_tracks ≤ j.total_tracks ∧
  j.progress = clamp_progress (j.completed_tracks : Int) (j.total_tracks : Int)

/-- Whether the loop counts this track as a successful provider call. -/
def isOkOutcome : ProviderOutcome → Bool
  | .ok => true
  | _ => false

/-- Whether the loop counts this track into `completed_tracks`: it has an
ISRC and either its file pre-exists or the provider succeeds. -/
def trackCompleted (t : TrackSpec) : Bool :=
  t.hasIsrc && (t.fileExists || isOkOutcome t.outcome)

/-- Number of tracks of `ts` the loop counts as completed. -/
def countCompleted (ts : List TrackSpec) : Nat :=
  (ts.filter trackCompleted).length

/-- The track index at which the loop observes cancellation, if any:
either the pre-track check of `state.cancel_requested` fires, or the
provider raises `JobCancelled` for that track. -/
def cancelObsIdx (cf : Option Nat) : Nat → List TrackSpec → Option Nat
  | _, [] => none
  | i, t :: rest =>
    if cancelSeen cf i then some i
    else if !t.hasIsrc then cancelObsIdx cf (i + 1) rest
    else if t.fileExists then cancelObsIdx cf (i + 1) rest
    else match t.outcome with
      | .cancel => some i
      | _ => cancelObsIdx cf (i + 1) rest

lemma clamp_progress_zero (n : Int) : clamp_progress 0 n = 0 := by
  unfold clamp_progress
  by_cases h : n ≤ 0
  · simp [h]
  · simp [h]

lemma jobInv_mkJob (id provider store url : String) (quality : Option String)
    (template : Tmpl) (output_dir : String) (mode : DownloadMode) (now : Nat) :
    jobInv (mkJob id provider store url quality template output_dir mode now) := by
  constructor
  · simp [mkJob]
  · simp [mkJob, clamp_progress_zero]

lemma jobInv_noIsrc {job : DownloadJob} (now : Nat)
    (h1 : job.completed_tracks + job.failed_tracks + 1 ≤ job.total_tracks)
    (h2 : jobInv job) : jobInv (jobNoIsrc now job) := by
  obtain ⟨ha, hb⟩ := h2
  constructor
  · simp only [jobNoIsrc]; omega
  · simpa [jobNoIsrc] using hb

lemma jobInv_fileExists {job : DownloadJob} (now : Nat)
    (h1 : job.completed_tracks + job.failed_tracks + 1 ≤ job.total_tracks) :
    jobInv (jobFileExists now job) := by
  constructor
  · simp only [jobFileExists]; omega
  · simp [jobFileExists]

lemma jobInv_downloadOk {job : DownloadJob} (now : Nat) (rel : String)
    (h1 : job.completed_tracks + job.failed_tracks + 1 ≤ job.total_tracks) :
    jobInv (jobDownloadOk now rel job) := by
  constructor
  · simp only [jobDownloadOk]; omega
  · simp [jobDownloadOk]

lemma jobInv_downloadErr {job : DownloadJob} (now : Nat)
    (h1 : job.completed_tracks + job.failed_tracks + 1 ≤ job.total_tracks) :
    jobInv (jobDownloadErr now job) := by
  constructor
  · simp only [jobDownloadErr]; omega
  · simp [jobDownloadErr]

lemma jobInv_provCancel {job : DownloadJob} (now : Nat)
    (h2 : jobInv job) : jobInv (jobProvCancel now job) := by
  obtain ⟨ha, hb⟩ := h2
  constructor
  · simpa [jobProvCancel] using ha
  · simp [jobProvCancel]

lemma runTracks_nil (now : Nat) (cf : Option Nat) (i : Nat) (job : DownloadJob) :
    runTracks now cf i [] job = ⟨.done, job, [], 0⟩ := rfl

lemma runTracks_cancel {cf : Option Nat} {i : Nat} (now : Nat)
    (t : TrackSpec) (rest : List TrackSpec) (job : DownloadJob)
    (hc : cancelSeen cf i = true) :
    runTracks now cf i (t :: rest) job = ⟨.cancelledSig, job, [], 0⟩ := by
  simp [runTracks, hc]

lemma runTracks_noIsrc {cf : Option Nat} {i : Nat} {t : TrackSpec} (now : Nat)
    (rest : List TrackSpec) (job : DownloadJob)
    (hc : cancelSeen cf i = false) (h : t.hasIsrc = false) :
    runTracks now cf i (t :: rest) job =
      let j := jobNoIsrc now job
      let s := runTracks now cf (i + 1) rest j
      ⟨s.out, s.job, j :: s.trace, s.calls⟩ := by
  simp [runTracks, hc, h]

lemma runTracks_fileExists {cf : Option Nat} {i : Nat} {t : TrackSpec} (now : Nat)
    (rest : List TrackSpec) (job : DownloadJob)
    (hc : cancelSeen cf i = false) (h : t.hasIsrc = true) (h2 : t.fileExists = true) :
    runTracks now cf i (t :: rest) job =
      let j := jobFileExists now job
      let s := runTracks now cf (i + 1) rest j
      ⟨s.out, s.job, j :: s.trace, s.calls⟩ := by
  simp [runTracks, hc, h, h2]

lemma runTracks_ok {cf : Option Nat} {i : Nat} {t : TrackSpec} (now : Nat)
    (rest : List TrackSpec) (job : DownloadJob)
    (hc : cancelSeen cf i = false) (h : t.hasIsrc = true) (h2 : t.fileExists = false)
    (h3 : t.outcome = .ok) :
    runTracks now cf i (t :: rest) job =
      let j := jobDownloadOk now t.relPath job
      let s := runTracks now cf (i + 1) rest j
      ⟨s.out, s.job, j :: s.trace, s.calls + 1⟩ := by
  simp [runTracks, hc, h, h2, h3]

lemma runTracks_err {cf : Option Nat} {i : Nat} {t : TrackSpec} (now : Nat)
    (rest : List TrackSpec) (job : DownloadJob) {m : String}
    (hc : cancelSeen cf i = false) (h : t.hasIsrc = true) (h2 : t.fileExists = false)
    (h3 : t.outcome = .err m) :
    runTracks now cf i (t :: rest) job =
      let j := jobDownloadErr now job
      let s := runTracks now cf (i + 1) rest j
      ⟨s.out, s.job, j :: s.trace, s.calls + 1⟩ := by
  simp [runTracks, hc, h, h2, h3]

lemma runTracks_provCancel {cf : Option Nat} {i : Nat} {t : TrackSpec} (now : Nat)
    (rest : List TrackSpec) (job : DownloadJob)
    (hc : cancelSeen cf i = false) (h : t.hasIsrc = true) (h2 : t.fileExists = false)
    (h3 : t.outcome = .cancel) :
    runTracks now cf i (t :: rest) job =
      ⟨.cancelledSig, jobProvCancel now job, [jobProvCancel now job], 1⟩ := by
  simp [runTracks, hc, h, h2, h3]

/-- The track loop never writes `status`, `error`, `finished_at` or
`total_tracks`: those belong to `_worker` and the pre-loop setup. -/
lemma runTracks_preserves (now : Nat) (cf : Option Nat) :
    ∀ (ts : List TrackSpec) (i : Nat) (job : DownloadJob),
    (runTracks now cf i ts job).job.total_tracks = job.total_tracks ∧
    (runTracks now cf i ts job).job.error = job.error ∧
    (runTracks now cf i ts job).job.status = job.status ∧
    (runTracks now cf i ts job).job.finished_at = job.finished_at := by
  intro ts
  induction ts with
  | nil => intro i job; simp [runTracks]
  | cons t rest ih =>
    intro i job
    by_cases hc : cancelSeen cf i = true
    · simp [runTracks_cancel now t rest job hc]
    · rw [Bool.not_eq_true] at hc
      by_cases hisrc : t.hasIsrc = true
      · by_cases hex : t.fileExists = true
        · rw [runTracks_fileExists now rest job hc hisrc hex]
          simpa [jobFileExists] using ih (i + 1) (jobFileExists now job)
        · rw [Bool.not_eq_true] at hex
          cases h3 : t.outcome with
          | ok =>
            rw [runTracks_ok now rest job hc hisrc hex h3]
            simpa [jobDownloadOk] using ih (i + 1) (jobDownloadOk now t.relPath job)
          | err m =>
            rw [runTracks_err now rest job hc hisrc hex h3]
            simpa [jobDownloadErr] using ih (i + 1) (jobDownloadErr now job)
          | cancel =>
            rw [runTracks_provCancel now rest job hc hisrc hex h3]
            simp [jobProvCancel]
      · rw [Bool.not_eq_true] at hisrc
        rw [runTracks_noIsrc now rest job hc hisrc]
        simpa [jobNoIsrc] using ih (i + 1) (jobNoIsrc now job)

/-- Loop invariant: while at least as many tracks remain as the counters
have yet to account for, every notified snapshot and the resulting job
satisfy the counter/progress invariant. -/
lemma runTracks_inv (now : Nat) (cf : Option Nat) :
    ∀ (ts : List TrackSpec) (i : Nat) (job : DownloadJob),
    job.completed_tracks + job.failed_tracks + ts.length ≤ job.total_tracks →
    jobInv job →
    (∀ j ∈ (runTracks now cf i ts job).trace, jobInv j) ∧
    jobInv (runTracks now cf i ts job).job := by
  intro ts
  induction ts with
  | nil =>
    intro i job h1 h2
    simpa [runTracks] using h2
  | cons t rest ih =>
    intro i job h1 h2
    simp only [List.length_cons] at h1
    have hstep : job.completed_tracks + job.failed_tracks + 1 ≤ job.total_tracks := by
      omega
    by_cases hc : cancelSeen cf i = true
    · simp only [runTracks_cancel now t rest job hc]
      exact ⟨by simp, h2⟩
    · rw [Bool.not_eq_true] at hc
      by_cases hisrc : t.hasIsrc = true
      · by_cases hex : t.fileExists = true
        · rw [runTracks_fileExists now rest job hc hisrc hex]
          have hj := jobInv_fileExists now hstep
          have hrec := ih (i + 1) (jobFileExists now job)
            (by simp only [jobFileExists]; omega) hj
          simp only []
          exact ⟨by
            intro x hx
            rcases List.mem_cons.mp hx with h | h
            · exact h ▸ hj
            · exact hrec.1 x h, hrec.2⟩
        · rw [Bool.not_eq_true] at hex
          cases h3 : t.outcome with
          | ok =>
            rw [runTracks_ok now rest job hc hisrc hex h3]
            have hj := jobInv_downloadOk now t.relPath hstep
            have hrec := ih (i + 1) (jobDownloadOk now t.relPath job)
              (by simp only [jobDownloadOk]; omega) hj
            exact ⟨by
              intro x hx
              rcases List.mem_cons.mp hx with h | h
              · exact h ▸ hj
              · exact hrec.1 x h, hrec.2⟩
          | err m =>
            rw [runTracks_err now rest job hc hisrc hex h3]
            have hj := jobInv_downloadErr now hstep
            have hrec := ih (i + 1) (jobDownloadErr now job)
              (by simp only [jobDownloadErr]; omega) hj
            exact ⟨by
              intro x hx
              rcases List.mem_cons.mp hx with h | h
              · exact h ▸ hj
              · exact hrec.1 x h, hrec.2⟩
          | cancel =>
            rw [runTracks_provCancel now rest job hc hisrc hex h3]
            have hj := jobInv_provCancel now h2
            exact ⟨by
              intro x hx
              rcases List.mem_cons.mp hx with h | h
              · exact h ▸ hj
              · simp at h, hj⟩
      · rw [Bool.not_eq_true] at hisrc
        rw [runTracks_noIsrc now rest job hc hisrc]
        have hj := jobInv_noIsrc now hstep h2
        have hrec := ih (i + 1) (jobNoIsrc now job)
          (by simp only [jobNoIsrc]; omega) hj
        exact ⟨by
          intro x hx
          rcases List.mem_cons.mp hx with h | h
          · exact h ▸ hj
          · exact hrec.1 x h, hrec.2⟩

lemma jobInv_finalize (now : Nat) (r : ExecResult) (h : jobInv r.job) :
    jobInv (finalizeJob now r) := by
  unfold finalizeJob
  cases r.outcome <;> exact ⟨h.1, h.2⟩

/-- `_execute_job` keeps every notified snapshot and its result inside the
counter/progress invariant, for a job whose counters start at zero. -/
lemma execute_job_inv (env : ExecEnv) (job : DownloadJob)
    (h0 : jobInv job) (hcz : job.completed_tracks = 0) (hfz : job.failed_tracks = 0) :
    (∀ x ∈ (execute_job env job).trace, jobInv x) ∧
    jobInv (execute_job env job).job := by
  unfold execute_job
  by_cases hst : env.storeAvailable
  · simp only [hst, Bool.not_true, Bool.false_eq_true, if_false]
    cases hres : env.resolve with
    | error msg => exact ⟨by simp, h0⟩
    | ok ri =>
      by_cases hemp : ri.tracks.isEmpty
      · simp only [hemp, if_true]
        exact ⟨by simp, h0⟩
      · simp only [hemp, if_false]
        have hj1 : jobInv (setupJob env ri job) := by
          constructor
          · simp [setupJob, hcz, hfz]
          · simp only [setupJob, hcz]
            have := h0.2
            rw [this, hcz]
            simp [clamp_progress_zero]
        have hmain := runTracks_inv env.now env.cancelFrom ri.tracks 0
          (setupJob env ri job) (by simp [setupJob, hcz, hfz]) hj1
        cases hout : (runTracks env.now env.cancelFrom 0 ri.tracks (setupJob env ri job)).out
        all_goals
          simp only [hout]
          refine ⟨?_, hmain.2⟩
          intro x hx
          rcases List.mem_cons.mp hx with h | h
          · exact h ▸ hj1
          · exact hmain.1 x h
  · simp only [Bool.not_eq_true'] at hst
    simp only [hst, Bool.not_false, if_true]
    exact ⟨by simp, h0⟩

/-- Every snapshot a worker notifies while processing a zero-counter job
satisfies the invariant, as does the terminal job. -/
lemma worker_run_inv (env : ExecEnv) (job : DownloadJob)
    (h0 : jobInv job) (hcz : job.completed_tracks = 0) (hfz : job.failed_tracks = 0) :
    (∀ x ∈ (worker_run env job).trace, jobInv x) ∧
    jobInv (worker_run env job).job := by
  have hR : jobInv { job with status := JobStatus.running, updated_at := env.now } := by
    simpa [jobInv] using h0
  have hexec := execute_job_inv env
    { job with status := JobStatus.running, updated_at := env.now } hR
    (by simpa using hcz) (by simpa using hfz)
  constructor
  · intro x hx
    simp only [worker_run, List.mem_cons, List.mem_append] at hx
    rcases hx with h | h | h
    · exact h ▸ hR
    · exact hexec.1 x h
    · rcases h with h | h
      · exact h ▸ jobInv_finalize env.now _ hexec.2
      · simp at h
  · exact jobInv_finalize env.now _ hexec.2

/-- Unpacking `jobInv` into the exact shape claim C1 states. -/
lemma jobInv_claim {j : DownloadJob} (h : jobInv j) :
    j.completed_tracks + j.failed_tracks ≤ j.total_tracks ∧
    (0 < j.total_tracks →
      j.progress = max 0 (min 1 ((j.completed_tracks : ℚ) / (j.total_tracks : ℚ)))) ∧
    (j.total_tracks = 0 → j.progress = 0) := by
  obtain ⟨h1, h2⟩ := h
  refine ⟨h1, ?_, ?_⟩
  · intro hpos
    rw [h2]
    unfold clamp_progress
    rw [if_neg (by exact_mod_cast Nat.not_le.mpr hpos)]
    norm_num
  · intro hz
    rw [h2, hz]
    simp [clamp_progress]

/-- C1: for every job built by `submit_job` and every observable snapshot
of it (the submission snapshot, every per-track notification, and the
terminal state), `completed_tracks + failed_tracks ≤ total_tracks`, and
`progress` equals `completed_tracks / total_tracks` clamped to `[0, 1]`
when `total_tracks > 0` and equals `0` when `total_tracks ≤ 0`. -/
theorem C1_snapshot_invariants (id provider store url : String)
    (quality : Option String) (template : Tmpl) (output_dir : String)
    (mode : DownloadMode) (now0 : Nat) (env : ExecEnv) (s : DownloadJob)
    (hs : s ∈ mkJob id provider store url quality template output_dir mode now0 ::
      (worker_run env (mkJob id provider store url quality template output_dir mode now0)).trace) :
    s.completed_tracks + s.failed_tracks ≤ s.total_tracks ∧
    (0 < s.total_tracks →
      s.progress = max 0 (min 1 ((s.completed_tracks : ℚ) / (s.total_tracks : ℚ)))) ∧
    (s.total_tracks = 0 → s.progress = 0) := by
  have h0 := jobInv_mkJob id provider store url quality template output_dir mode now0
  have hrun := worker_run_inv env
    (mkJob id provider store url quality template output_dir mode now0) h0
    (by simp [mkJob]) (by simp [mkJob])
  rcases List.mem_cons.mp hs with h | h
  · exact jobInv_claim (h ▸ h0)
  · exact jobInv_claim (hrun.1 s h)

/-- Witness for C1: a concrete job and environment, checked at the
submission snapshot. -/
theorem C1_snapshot_invariants_witness :
    (mkJob "j1" "spotify" "qobuz" "u" none [] "dl" DownloadMode.by_artist 0).completed_tracks +
      (mkJob "j1" "spotify" "qobuz" "u" none [] "dl" DownloadMode.by_artist 0).failed_tracks ≤
      (mkJob "j1" "spotify" "qobuz" "u" none [] "dl" DownloadMode.by_artist 0).total_tracks ∧
    (0 < (mkJob "j1" "spotify" "qobuz" "u" none [] "dl" DownloadMode.by_artist 0).total_tracks →
      (mkJob "j1" "spotify" "qobuz" "u" none [] "dl" DownloadMode.by_artist 0).progress =
        max 0 (min 1 (((mkJob "j1" "spotify" "qobuz" "u" none [] "dl" DownloadMode.by_artist 0).completed_tracks : ℚ) /
          ((mkJob "j1" "spotify" "qobuz" "u" none [] "dl" DownloadMode.by_artist 0).total_tracks : ℚ)))) ∧
    ((mkJob "j1" "spotify" "qobuz" "u" none [] "dl" DownloadMode.by_artist 0).total_tracks = 0 →
      (mkJob "j1" "spotify" "qobuz" "u" none [] "dl" DownloadMode.by_artist 0).progress = 0) :=
  C1_snapshot_invariants "j1" "spotify" "qobuz" "u" none [] "dl" DownloadMode.by_artist 0
    ⟨true, .ok ⟨some "pl", "playlist", [⟨true, true, .ok, "a"⟩]⟩, none, "dl", 1⟩
    (mkJob "j1" "spotify" "qobuz" "u" none [] "dl" DownloadMode.by_artist 0)
    (List.mem_cons_self _ _)

lemma worker_run_eq (env : ExecEnv) (job : DownloadJob) :
    worker_run env job =
      ⟨finalizeJob env.now (execute_job env { job with status := JobStatus.running, updated_at := env.now }),
       { job with status := JobStatus.running, updated_at := env.now } ::
         ((execute_job env { job with status := JobStatus.running, updated_at := env.now }).trace ++
          [finalizeJob env.now (execute_job env { job with status := JobStatus.running, updated_at := env.now })]),
       (execute_job env { job with status := JobStatus.running, updated_at := env.now }).calls⟩ := rfl

lemma execute_job_run (env : ExecEnv) (job : DownloadJob) (ri : ResolvedInput)
    (hst : env.storeAvailable = true) (hres : env.resolve = .ok ri)
    (hemp : ri.tracks.isEmpty = false) :
    execute_job env job =
      ⟨(match (runTracks env.now env.cancelFrom 0 ri.tracks (setupJob env ri job)).out with
        | .done => ExecOutcomeKind.ok
        | .cancelledSig => ExecOutcomeKind.cancelled),
       (runTracks env.now env.cancelFrom 0 ri.tracks (setupJob env ri job)).job,
       setupJob env ri job ::
         (runTracks env.now env.cancelFrom 0 ri.tracks (setupJob env ri job)).trace,
       (runTracks env.now env.cancelFrom 0 ri.tracks (setupJob env ri job)).calls⟩ := by
  simp only [execute_job, hst, hres, hemp, Bool.not_true, Bool.false_eq_true,
    if_false]
  cases hout : (runTracks env.now env.cancelFrom 0 ri.tracks (setupJob env ri job)).out <;>
    simp [hout]

lemma execute_job_empty (env : ExecEnv) (job : DownloadJob) (ri : ResolvedInput)
    (hst : env.storeAvailable = true) (hres : env.resolve = .ok ri)
    (hemp : ri.tracks.isEmpty = true) :
    execute_job env job = ⟨.jobError emptyTracksMsg, job, [], 0⟩ := by
  simp [execute_job, hst, hres, hemp]

lemma finalizeJob_status (now : Nat) (r : ExecResult) :
    (finalizeJob now r).status =
      (match r.outcome with
       | .ok => JobStatus.completed
       | .cancelled => JobStatus.cancelled
       | .jobError _ => JobStatus.failed) := by
  cases h : r.outcome <;> simp [finalizeJob, h]

/-- C2: a non-cancellation exception from `download_track` increments
`failed_tracks` by exactly one and the loop continues with the next
track; a 3-track job whose provider fails only on track 2 ends
`completed` with `completed_tracks = 2` and `failed_tracks = 1`; and
whenever the job-level preconditions hold (store present, resolution
succeeded, at least one track), track-level failures never make the job
`failed` — the terminal status is `completed` or `cancelled`. -/
theorem C2_track_failure_isolation :
    (∀ (now : Nat) (cf : Option Nat) (i : Nat) (m p : String)
        (rest : List TrackSpec) (job : DownloadJob),
      cancelSeen cf i = false →
      runTracks now cf i (⟨true, false, .err m, p⟩ :: rest) job =
        ⟨(runTracks now cf (i + 1) rest (jobDownloadErr now job)).out,
         (runTracks now cf (i + 1) rest (jobDownloadErr now job)).job,
         jobDownloadErr now job ::
           (runTracks now cf (i + 1) rest (jobDownloadErr now job)).trace,
         (runTracks now cf (i + 1) rest (jobDownloadErr now job)).calls + 1⟩ ∧
      (jobDownloadErr now job).failed_tracks = job.failed_tracks + 1 ∧
      (jobDownloadErr now job).completed_tracks = job.completed_tracks) ∧
    (∀ (id provider store url : String) (quality : Option String)
        (template : Tmpl) (output_dir : String) (mode : DownloadMode)
        (now0 : Nat) (name : Option String) (stype dl : String) (now : Nat)
        (m p1 p2 p3 : String),
      (worker_run
        ⟨true, .ok ⟨name, stype, [⟨true, false, .ok, p1⟩, ⟨true, false, .err m, p2⟩,
          ⟨true, false, .ok, p3⟩]⟩, none, dl, now⟩
        (mkJob id provider store url quality template output_dir mode now0)).job.status =
          JobStatus.completed ∧
      (worker_run
        ⟨true, .ok ⟨name, stype, [⟨true, false, .ok, p1⟩, ⟨true, false, .err m, p2⟩,
          ⟨true, false, .ok, p3⟩]⟩, none, dl, now⟩
        (mkJob id provider store url quality template output_dir mode now0)).job.completed_tracks = 2 ∧
      (worker_run
        ⟨true, .ok ⟨name, stype, [⟨true, false, .ok, p1⟩, ⟨true, false, .err m, p2⟩,
          ⟨true, false, .ok, p3⟩]⟩, none, dl, now⟩
        (mkJob id provider store url quality template output_dir mode now0)).job.failed_tracks = 1) ∧
    (∀ (env : ExecEnv) (job : DownloadJob) (ri : ResolvedInput),
      env.storeAvailable = true → env.resolve = .ok ri → ri.tracks.isEmpty = false →
      (worker_run env job).job.status = JobStatus.completed ∨
      (worker_run env job).job.status = JobStatus.cancelled) := by
  refine ⟨?_, ?_, ?_⟩
  · intro now cf i m p rest job hc
    refine ⟨?_, rfl, rfl⟩
    exact runTracks_err now rest job hc rfl rfl rfl
  · intro id provider store url quality template output_dir mode now0 name stype dl now m p1 p2 p3
    refine ⟨rfl, rfl, rfl⟩
  · intro env job ri hst hres hemp
    rw [worker_run_eq]
    simp only [execute_job_run env _ ri hst hres hemp, finalizeJob_status]
    cases (runTracks env.now env.cancelFrom 0 ri.tracks
        (setupJob env ri { job with status := JobStatus.running, updated_at := env.now })).out
    · left; rfl
    · right; rfl

/-- Witness for C2: each conjunct instantiated at concrete inputs. -/
theorem C2_track_failure_isolation_witness :
    (runTracks 5 none 0 (⟨true, false, .err "boom", "p"⟩ :: []) (mkJob "j" "spotify" "qobuz" "u" none [] "d" DownloadMode.by_artist 0) =
      ⟨(runTracks 5 none 1 [] (jobDownloadErr 5 (mkJob "j" "spotify" "qobuz" "u" none [] "d" DownloadMode.by_artist 0))).out,
       (runTracks 5 none 1 [] (jobDownloadErr 5 (mkJob "j" "spotify" "qobuz" "u" none [] "d" DownloadMode.by_artist 0))).job,
       jobDownloadErr 5 (mkJob "j" "spotify" "qobuz" "u" none [] "d" DownloadMode.by_artist 0) ::
         (runTracks 5 none 1 [] (jobDownloadErr 5 (mkJob "j" "spotify" "qobuz" "u" none [] "d" DownloadMode.by_artist 0))).trace,
       (runTracks 5 none 1 [] (jobDownloadErr 5 (mkJob "j" "spotify" "qobuz" "u" none [] "d" DownloadMode.by_artist 0))).calls + 1⟩ ∧
     (jobDownloadErr 5 (mkJob "j" "spotify" "qobuz" "u" none [] "d" DownloadMode.by_artist 0)).failed_tracks =
       (mkJob "j" "spotify" "qobuz" "u" none [] "d" DownloadMode.by_artist 0).failed_tracks + 1 ∧
     (jobDownloadErr 5 (mkJob "j" "spotify" "qobuz" "u" none [] "d" DownloadMode.by_artist 0)).completed_tracks =
       (mkJob "j" "spotify" "qobuz" "u" none [] "d" DownloadMode.by_artist 0).completed_tracks) ∧
    ((worker_run
        ⟨true, .ok ⟨some "pl", "playlist", [⟨true, false, .ok, "a"⟩, ⟨true, false, .err "boom", "b"⟩,
          ⟨true, false, .ok, "c"⟩]⟩, none, "d", 7⟩
        (mkJob "j" "spotify" "qobuz" "u" none [] "d" DownloadMode.by_artist 0)).job.status =
          JobStatus.completed ∧
     (worker_run
        ⟨true, .ok ⟨some "pl", "playlist", [⟨true, false, .ok, "a"⟩, ⟨true, false, .err "boom", "b"⟩,
          ⟨true, false, .ok, "c"⟩]⟩, none, "d", 7⟩
        (mkJob "j" "spotify" "qobuz" "u" none [] "d" DownloadMode.by_artist 0)).job.completed_tracks = 2 ∧
     (worker_run
        ⟨true, .ok ⟨some "pl", "playlist", [⟨true, false, .ok, "a"⟩, ⟨true, false, .err "boom", "b"⟩,
          ⟨true, false, .ok, "c"⟩]⟩, none, "d", 7⟩
        (mkJob "j" "spotify" "qobuz" "u" none [] "d" DownloadMode.by_artist 0)).job.failed_tracks = 1) :=
  ⟨(C2_track_failure_isolation.1 5 none 0 "boom" "p" [] _ (by decide)),
   (C2_track_failure_isolation.2.1 "j" "spotify" "qobuz" "u" none [] "d" DownloadMode.by_artist 0
      (some "pl") "playlist" "d" 7 "boom" "a" "b" "c")⟩

lemma countCompleted_cons_true {t : TrackSpec} (h : trackCompleted t = true)
    (l : List TrackSpec) : countCompleted (t :: l) = countCompleted l + 1 := by
  simp [countCompleted, List.filter_cons, h]

lemma countCompleted_cons_false {t : TrackSpec} (h : trackCompleted t = false)
    (l : List TrackSpec) : countCompleted (t :: l) = countCompleted l := by
  simp [countCompleted, List.filter_cons, h]

/-- If cancellation is observed at index `k`, the loop raises
`JobCancelled` and `completed_tracks` has grown by exactly the completed
tracks among those processed before index `k`. -/
lemma runTracks_cancelObs (now : Nat) (cf : Option Nat) :
    ∀ (ts : List TrackSpec) (i k : Nat) (job : DownloadJob),
    cancelObsIdx cf i ts = some k →
    i ≤ k ∧
    (runTracks now cf i ts job).out = .cancelledSig ∧
    (runTracks now cf i ts job).job.completed_tracks =
      job.completed_tracks + countCompleted (ts.take (k - i)) := by
  intro ts
  induction ts with
  | nil => intro i k job hobs; simp [cancelObsIdx] at hobs
  | cons t rest ih =>
    intro i k job hobs
    by_cases hc : cancelSeen cf i = true
    · have hk : k = i := by
        simp [cancelObsIdx, hc] at hobs
        omega
      subst hk
      rw [runTracks_cancel now t rest job hc]
      simp [countCompleted]
    · rw [Bool.not_eq_true] at hc
      by_cases hisrc : t.hasIsrc = true
      · by_cases hex : t.fileExists = true
        · have hobs' : cancelObsIdx cf (i + 1) rest = some k := by
            simpa [cancelObsIdx, hc, hisrc, hex] using hobs
          obtain ⟨hik, hout, hcomp⟩ := ih (i + 1) k (jobFileExists now job) hobs'
          rw [runTracks_fileExists now rest job hc hisrc hex]
          refine ⟨by omega, hout, ?_⟩
          show (runTracks now cf (i + 1) rest (jobFileExists now job)).job.completed_tracks =
            job.completed_tracks + countCompleted (List.take (k - i) (t :: rest))
          rw [hcomp]
          have htake : k - i = (k - (i + 1)) + 1 := by omega
          rw [htake, List.take_succ_cons,
            countCompleted_cons_true (by simp [trackCompleted, hisrc, hex])]
          simp only [jobFileExists]
          omega
        · rw [Bool.not_eq_true] at hex
          cases h3 : t.outcome with
          | ok =>
            have hobs' : cancelObsIdx cf (i + 1) rest = some k := by
              simpa [cancelObsIdx, hc, hisrc, hex, h3] using hobs
            obtain ⟨hik, hout, hcomp⟩ := ih (i + 1) k (jobDownloadOk now t.relPath job) hobs'
            rw [runTracks_ok now rest job hc hisrc hex h3]
            refine ⟨by omega, hout, ?_⟩
            show (runTracks now cf (i + 1) rest (jobDownloadOk now t.relPath job)).job.completed_tracks =
              job.completed_tracks + countCompleted (List.take (k - i) (t :: rest))
            rw [hcomp]
            have htake : k - i = (k - (i + 1)) + 1 := by omega
            rw [htake, List.take_succ_cons,
              countCompleted_cons_true (by simp [trackCompleted, hisrc, hex, isOkOutcome, h3])]
            simp only [jobDownloadOk]
            omega
          | err m =>
            have hobs' : cancelObsIdx cf (i + 1) rest = some k := by
              simpa [cancelObsIdx, hc, hisrc, hex, h3] using hobs
            obtain ⟨hik, hout, hcomp⟩ := ih (i + 1) k (jobDownloadErr now job) hobs'
            rw [runTracks_err now rest job hc hisrc hex h3]
            refine ⟨by omega, hout, ?_⟩
            show (runTracks now cf (i + 1) rest (jobDownloadErr now job)).job.completed_tracks =
              job.completed_tracks + countCompleted (List.take (k - i) (t :: rest))
            rw [hcomp]
            have htake : k - i = (k - (i + 1)) + 1 := by omega
            rw [htake, List.take_succ_cons,
              countCompleted_cons_false (by simp [trackCompleted, hisrc, hex, isOkOutcome, h3])]
            simp only [jobDownloadErr]
          | cancel =>
            have hk : k = i := by
              simp [cancelObsIdx, hc, hisrc, hex, h3] at hobs
              omega
            subst hk
            rw [runTracks_provCancel now rest job hc hisrc hex h3]
            simp [jobProvCancel, countCompleted]
      · rw [Bool.not_eq_true] at hisrc
        have hobs' : cancelObsIdx cf (i + 1) rest = some k := by
          simpa [cancelObsIdx, hc, hisrc] using hobs
        obtain ⟨hik, hout, hcomp⟩ := ih (i + 1) k (jobNoIsrc now job) hobs'
        rw [runTracks_noIsrc now rest job hc hisrc]
        refine ⟨by omega, hout, ?_⟩
        show (runTracks now cf (i + 1) rest (jobNoIsrc now job)).job.completed_tracks =
          job.completed_tracks + countCompleted (List.take (k - i) (t :: rest))
        rw [hcomp]
        have htake : k - i = (k - (i + 1)) + 1 := by omega
        rw [htake, List.take_succ_cons,
          countCompleted_cons_false (by simp [trackCompleted, hisrc])]
        simp only [jobNoIsrc]

lemma finalizeJob_fields (now : Nat) (r : ExecResult) :
    (finalizeJob now r).completed_tracks = r.job.completed_tracks ∧
    (finalizeJob now r).failed_tracks = r.job.failed_tracks ∧
    (finalizeJob now r).total_tracks = r.job.total_tracks ∧
    (finalizeJob now r).error =
      (match r.outcome with
       | .jobError m => some m
       | _ => r.job.error) := by
  unfold finalizeJob
  cases r.outcome <;> simp

/-- Worker-level cancellation: if the loop observes cancellation at track
index `k`, the job finishes `cancelled`, its `error` is untouched, and
`completed_tracks` grew by exactly the tracks completed before `k`. -/
lemma worker_run_cancelled (env : ExecEnv) (job : DownloadJob)
    (ri : ResolvedInput) (k : Nat)
    (hst : env.storeAvailable = true) (hres : env.resolve = .ok ri)
    (hobs : cancelObsIdx env.cancelFrom 0 ri.tracks = some k) :
    (worker_run env job).job.status = JobStatus.cancelled ∧
    (worker_run env job).job.error = job.error ∧
    (worker_run env job).job.completed_tracks =
      job.completed_tracks + countCompleted (ri.tracks.take k) := by
  have hemp : ri.tracks.isEmpty = false := by
    cases htr : ri.tracks with
    | nil => rw [htr] at hobs; simp [cancelObsIdx] at hobs
    | cons a l => simp [htr]
  set jr : DownloadJob := { job with status := JobStatus.running, updated_at := env.now } with hjr
  obtain ⟨hik, hout, hcomp⟩ := runTracks_cancelObs env.now env.cancelFrom ri.tracks 0 k
    (setupJob env ri jr) hobs
  have hexec := execute_job_run env jr ri hst hres hemp
  have houtc : (execute_job env jr).outcome = ExecOutcomeKind.cancelled := by
    rw [hexec]
    simp [hout]
  have hjobe : (execute_job env jr).job =
      (runTracks env.now env.cancelFrom 0 ri.tracks (setupJob env ri jr)).job := by
    rw [hexec]
  refine ⟨?_, ?_, ?_⟩
  · show (finalizeJob env.now (execute_job env jr)).status = JobStatus.cancelled
    rw [finalizeJob_status, houtc]
  · show (finalizeJob env.now (execute_job env jr)).error = job.error
    rw [(finalizeJob_fields env.now _).2.2.2, houtc]
    show (execute_job env jr).job.error = job.error
    rw [hjobe, (runTracks_preserves env.now env.cancelFrom ri.tracks 0 (setupJob env ri jr)).2.1]
    simp [setupJob, hjr]
  · show (finalizeJob env.now (execute_job env jr)).completed_tracks =
      job.completed_tracks + countCompleted (ri.tracks.take k)
    rw [(finalizeJob_fields env.now _).1, hjobe, hcomp]
    simp [setupJob, hjr]

/-- C3: for a job whose run observes the cancellation signal — at the
pre-track check or via `JobCancelled` propagated from the store provider
at some track index `k` — the terminal status is `cancelled`, the `error`
field stays unset, and `completed_tracks` equals the number of tracks
that finished before the signal was observed. -/
theorem C3_cancellation_outcome (id provider store url : String)
    (quality : Option String) (template : Tmpl) (output_dir : String)
    (mode : DownloadMode) (now0 : Nat) (env : ExecEnv) (ri : ResolvedInput) (k : Nat)
    (hst : env.storeAvailable = true) (hres : env.resolve = .ok ri)
    (hobs : cancelObsIdx env.cancelFrom 0 ri.tracks = some k) :
    (worker_run env (mkJob id provider store url quality template output_dir mode now0)).job.status =
      JobStatus.cancelled ∧
    (worker_run env (mkJob id provider store url quality template output_dir mode now0)).job.error =
      none ∧
    (worker_run env (mkJob id provider store url quality template output_dir mode now0)).job.completed_tracks =
      countCompleted (ri.tracks.take k) := by
  obtain ⟨h1, h2, h3⟩ := worker_run_cancelled env
    (mkJob id provider store url quality template output_dir mode now0) ri k hst hres hobs
  refine ⟨h1, ?_, ?_⟩
  · rw [h2]; rfl
  · rw [h3]; simp [mkJob]

/-- Witness for C3: cancellation requested after one successful track of
three; the job ends `cancelled` with one completed track. -/
theorem C3_cancellation_outcome_witness :
    (worker_run
      ⟨true, .ok ⟨some "pl", "playlist",
        [⟨true, false, .ok, "a"⟩, ⟨true, false, .ok, "b"⟩, ⟨true, false, .ok, "c"⟩]⟩,
        some 1, "d", 9⟩
      (mkJob "j" "spotify" "qobuz" "u" none [] "d" DownloadMode.by_artist 0)).job.status =
        JobStatus.cancelled ∧
    (worker_run
      ⟨true, .ok ⟨some "pl", "playlist",
        [⟨true, false, .ok, "a"⟩, ⟨true, false, .ok, "b"⟩, ⟨true, false, .ok, "c"⟩]⟩,
        some 1, "d", 9⟩
      (mkJob "j" "spotify" "qobuz" "u" none [] "d" DownloadMode.by_artist 0)).job.error = none ∧
    (worker_run
      ⟨true, .ok ⟨some "pl", "playlist",
        [⟨true, false, .ok, "a"⟩, ⟨true, false, .ok, "b"⟩, ⟨true, false, .ok, "c"⟩]⟩,
        some 1, "d", 9⟩
      (mkJob "j" "spotify" "qobuz" "u" none [] "d" DownloadMode.by_artist 0)).job.completed_tracks =
      countCompleted (List.take 1
        [⟨true, false, .ok, "a"⟩, ⟨true, false, .ok, "b"⟩, ⟨true, false, .ok, "c"⟩]) :=
  C3_cancellation_outcome "j" "spotify" "qobuz" "u" none [] "d" DownloadMode.by_artist 0
    ⟨true, .ok ⟨some "pl", "playlist",
      [⟨true, false, .ok, "a"⟩, ⟨true, false, .ok, "b"⟩, ⟨true, false, .ok, "c"⟩]⟩,
      some 1, "d", 9⟩
    ⟨some "pl", "playlist",
      [⟨true, false, .ok, "a"⟩, ⟨true, false, .ok, "b"⟩, ⟨true, false, .ok, "c"⟩]⟩
    1 rfl rfl (by decide)

/-- C5: a job whose metadata resolution returns zero tracks ends
`failed` with the non-empty error `"Список треков пуст"`, with
`total_tracks = 0` (the emptiness check precedes the `total_tracks`
assignment) and no per-track accounting
(`completed_tracks = failed_tracks = 0`). -/
theorem C5_empty_track_list (id provider store url : String)
    (quality : Option String) (template : Tmpl) (output_dir : String)
    (mode : DownloadMode) (now0 : Nat) (env : ExecEnv) (ri : ResolvedInput)
    (hst : env.storeAvailable = true) (hres : env.resolve = .ok ri)
    (hemp : ri.tracks = []) :
    (worker_run env (mkJob id provider store url quality template output_dir mode now0)).job.status =
      JobStatus.failed ∧
    (worker_run env (mkJob id provider store url quality template output_dir mode now0)).job.error =
      some emptyTracksMsg ∧
    emptyTracksMsg ≠ "" ∧
    (worker_run env (mkJob id provider store url quality template output_dir mode now0)).job.total_tracks = 0 ∧
    (worker_run env (mkJob id provider store url quality template output_dir mode now0)).job.completed_tracks = 0 ∧
    (worker_run env (mkJob id provider store url quality template output_dir mode now0)).job.failed_tracks = 0 := by
  set jr : DownloadJob :=
    { mkJob id provider store url quality template output_dir mode now0 with
      status := JobStatus.running, updated_at := env.now } with hjr
  have hexec := execute_job_empty env jr ri hst hres (by rw [hemp]; rfl)
  refine ⟨?_, ?_, by decide, ?_, ?_, ?_⟩
  · show (finalizeJob env.now (execute_job env jr)).status = JobStatus.failed
    rw [hexec, finalizeJob_status]
  · show (finalizeJob env.now (execute_job env jr)).error = some emptyTracksMsg
    rw [hexec, (finalizeJob_fields env.now _).2.2.2]
  · show (finalizeJob env.now (execute_job env jr)).total_tracks = 0
    rw [hexec, (finalizeJob_fields env.now _).2.2.1]
    simp [hjr, mkJob]
  · show (finalizeJob env.now (execute_job env jr)).completed_tracks = 0
    rw [hexec, (finalizeJob_fields env.now _).1]
    simp [hjr, mkJob]
  · show (finalizeJob env.now (execute_job env jr)).failed_tracks = 0
    rw [hexec, (finalizeJob_fields env.now _).2.1]
    simp [hjr, mkJob]

/-- Witness for C5 at a concrete job and environment. -/
theorem C5_empty_track_list_witness :
    (worker_run ⟨true, .ok ⟨some "pl", "playlist", []⟩, none, "d", 3⟩
      (mkJob "j" "spotify" "qobuz" "u" none [] "d" DownloadMode.by_artist 0)).job.status =
        JobStatus.failed ∧
    (worker_run ⟨true, .ok ⟨some "pl", "playlist", []⟩, none, "d", 3⟩
      (mkJob "j" "spotify" "qobuz" "u" none [] "d" DownloadMode.by_artist 0)).job.error =
        some emptyTracksMsg ∧
    emptyTracksMsg ≠ "" ∧
    (worker_run ⟨true, .ok ⟨some "pl", "playlist", []⟩, none, "d", 3⟩
      (mkJob "j" "spotify" "qobuz" "u" none [] "d" DownloadMode.by_artist 0)).job.total_tracks = 0 ∧
    (worker_run ⟨true, .ok ⟨some "pl", "playlist", []⟩, none, "d", 3⟩
      (mkJob "j" "spotify" "qobuz" "u" none [] "d" DownloadMode.by_artist 0)).job.completed_tracks = 0 ∧
    (worker_run ⟨true, .ok ⟨some "pl", "playlist", []⟩, none, "d", 3⟩
      (mkJob "j" "spotify" "qobuz" "u" none [] "d" DownloadMode.by_artist 0)).job.failed_tracks = 0 :=
  C5_empty_track_list "j" "spotify" "qobuz" "u" none [] "d" DownloadMode.by_artist 0
    ⟨true, .ok ⟨some "pl", "playlist", []⟩, none, "d", 3⟩
    ⟨some "pl", "playlist", []⟩ rfl rfl rfl

/-- With no cancellation and every track having an ISRC and a pre-existing
file, the loop completes every track without a single provider call. -/
lemma runTracks_allExists (now : Nat) :
    ∀ (ts : List TrackSpec) (i : Nat) (job : DownloadJob),
    (∀ t ∈ ts, t.hasIsrc = true ∧ t.fileExists = true) →
    (runTracks now none i ts job).out = .done ∧
    (runTracks now none i ts job).job.completed_tracks =
      job.completed_tracks + ts.length ∧
    (runTracks now none i ts job).calls = 0 := by
  intro ts
  induction ts with
  | nil => intro i job _; simp [runTracks]
  | cons t rest ih =>
    intro i job hall
    obtain ⟨hisrc, hex⟩ := hall t (List.mem_cons_self t rest)
    have hc : cancelSeen none i = false := rfl
    rw [runTracks_fileExists now rest job hc hisrc hex]
    obtain ⟨hout, hcomp, hcalls⟩ := ih (i + 1) (jobFileExists now job)
      (fun x hx => hall x (List.mem_cons_of_mem t hx))
    refine ⟨hout, ?_, hcalls⟩
    show (runTracks now none (i + 1) rest (jobFileExists now job)).job.completed_tracks =
      job.completed_tracks + (t :: rest).length
    rw [hcomp]
    simp only [jobFileExists, List.length_cons]
    omega

/-- C6: a track whose final destination path already exists is counted as
completed without invoking the store provider, and a job all of whose
tracks' target files already exist (tracks carrying ISRCs, no
cancellation) ends `completed` with `completed_tracks = total_tracks` and
zero store-provider invocations. -/
theorem C6_preexisting_files_idempotent :
    (∀ (now : Nat) (cf : Option Nat) (i : Nat) (t : TrackSpec)
        (rest : List TrackSpec) (job : DownloadJob),
      cancelSeen cf i = false → t.hasIsrc = true → t.fileExists = true →
      runTracks now cf i (t :: rest) job =
        ⟨(runTracks now cf (i + 1) rest (jobFileExists now job)).out,
         (runTracks now cf (i + 1) rest (jobFileExists now job)).job,
         jobFileExists now job ::
           (runTracks now cf (i + 1) rest (jobFileExists now job)).trace,
         (runTracks now cf (i + 1) rest (jobFileExists now job)).calls⟩ ∧
      (jobFileExists now job).completed_tracks = job.completed_tracks + 1) ∧
    (∀ (id provider store url : String) (quality : Option String)
        (template : Tmpl) (output_dir : String) (mode : DownloadMode)
        (now0 : Nat) (env : ExecEnv) (ri : ResolvedInput),
      env.storeAvailable = true → env.resolve = .ok ri →
      env.cancelFrom = none → ri.tracks ≠ [] →
      (∀ t ∈ ri.tracks, t.hasIsrc = true ∧ t.fileExists = true) →
      (worker_run env (mkJob id provider store url quality template output_dir mode now0)).job.status =
        JobStatus.completed ∧
      (worker_run env (mkJob id provider store url quality template output_dir mode now0)).job.completed_tracks =
        (worker_run env (mkJob id provider store url quality template output_dir mode now0)).job.total_tracks ∧
      (worker_run env (mkJob id provider store url quality template output_dir mode now0)).calls = 0) := by
  constructor
  · intro now cf i t rest job hc hisrc hex
    exact ⟨runTracks_fileExists now rest job hc hisrc hex, rfl⟩
  · intro id provider store url quality template output_dir mode now0 env ri
      hst hres hcf hne hall
    have hemp : ri.tracks.isEmpty = false := by
      cases htr : ri.tracks with
      | nil => exact absurd htr hne
      | cons a l => simp [htr]
    set jr : DownloadJob :=
      { mkJob id provider store url quality template output_dir mode now0 with
        status := JobStatus.running, updated_at := env.now } with hjr
    have hexec := execute_job_run env jr ri hst hres hemp
    have hall' := runTracks_allExists env.now ri.tracks 0 (setupJob env ri jr) hall
    rw [hcf] at hexec
    obtain ⟨hout, hcomp, hcalls⟩ := hall'
    have houtc : (execute_job env jr).outcome = ExecOutcomeKind.ok := by
      rw [hexec]
      simp [hout]
    refine ⟨?_, ?_, ?_⟩
    · show (finalizeJob env.now (execute_job env jr)).status = JobStatus.completed
      rw [finalizeJob_status, houtc]
    · show (finalizeJob env.now (execute_job env jr)).completed_tracks =
        (finalizeJob env.now (execute_job env jr)).total_tracks
      rw [(finalizeJob_fields env.now _).1, (finalizeJob_fields env.now _).2.2.1,
        hexec]
      show (runTracks env.now none 0 ri.tracks (setupJob env ri jr)).job.completed_tracks =
        (runTracks env.now none 0 ri.tracks (setupJob env ri jr)).job.total_tracks
      rw [hcomp]
      have hpres := runTracks_preserves env.now none ri.tracks 0 (setupJob env ri jr)
      rw [hpres.1]
      simp [setupJob, hjr, mkJob]
    · show (execute_job env jr).calls = 0
      rw [hexec]
      exact hcalls

/-- Witness for C6: both conjuncts at concrete inputs. -/
theorem C6_preexisting_files_idempotent_witness :
    (runTracks 4 none 0 (⟨true, true, .ok, "a"⟩ :: []) (mkJob "j" "spotify" "qobuz" "u" none [] "d" DownloadMode.by_artist 0) =
      ⟨(runTracks 4 none 1 [] (jobFileExists 4 (mkJob "j" "spotify" "qobuz" "u" none [] "d" DownloadMode.by_artist 0))).out,
       (runTracks 4 none 1 [] (jobFileExists 4 (mkJob "j" "spotify" "qobuz" "u" none [] "d" DownloadMode.by_artist 0))).job,
       jobFileExists 4 (mkJob "j" "spotify" "qobuz" "u" none [] "d" DownloadMode.by_artist 0) ::
         (runTracks 4 none 1 [] (jobFileExists 4 (mkJob "j" "spotify" "qobuz" "u" none [] "d" DownloadMode.by_artist 0))).trace,
       (runTracks 4 none 1 [] (jobFileExists 4 (mkJob "j" "spotify" "qobuz" "u" none [] "d" DownloadMode.by_artist 0))).calls⟩ ∧
     (jobFileExists 4 (mkJob "j" "spotify" "qobuz" "u" none [] "d" DownloadMode.by_artist 0)).completed_tracks =
       (mkJob "j" "spotify" "qobuz" "u" none [] "d" DownloadMode.by_artist 0).completed_tracks + 1) ∧
    ((worker_run ⟨true, .ok ⟨some "pl", "playlist", [⟨true, true, .ok, "a"⟩, ⟨true, true, .ok, "b"⟩]⟩, none, "d", 4⟩
        (mkJob "j" "spotify" "qobuz" "u" none [] "d" DownloadMode.by_artist 0)).job.status =
          JobStatus.completed ∧
     (worker_run ⟨true, .ok ⟨some "pl", "playlist", [⟨true, true, .ok, "a"⟩, ⟨true, true, .ok, "b"⟩]⟩, none, "d", 4⟩
        (mkJob "j" "spotify" "qobuz" "u" none [] "d" DownloadMode.by_artist 0)).job.completed_tracks =
       (worker_run ⟨true, .ok ⟨some "pl", "playlist", [⟨true, true, .ok, "a"⟩, ⟨true, true, .ok, "b"⟩]⟩, none, "d", 4⟩
        (mkJob "j" "spotify" "qobuz" "u" none [] "d" DownloadMode.by_artist 0)).job.total_tracks ∧
     (worker_run ⟨true, .ok ⟨some "pl", "playlist", [⟨true, true, .ok, "a"⟩, ⟨true, true, .ok, "b"⟩]⟩, none, "d", 4⟩
        (mkJob "j" "spotify" "qobuz" "u" none [] "d" DownloadMode.by_artist 0)).calls = 0) :=
  ⟨C6_preexisting_files_idempotent.1 4 none 0 ⟨true, true, .ok, "a"⟩ []
      (mkJob "j" "spotify" "qobuz" "u" none [] "d" DownloadMode.by_artist 0) rfl rfl rfl,
   C6_preexisting_files_idempotent.2 "j" "spotify" "qobuz" "u" none [] "d" DownloadMode.by_artist 0
      ⟨true, .ok ⟨some "pl", "playlist", [⟨true, true, .ok, "a"⟩, ⟨true, true, .ok, "b"⟩]⟩, none, "d", 4⟩
      ⟨some "pl", "playlist", [⟨true, true, .ok, "a"⟩, ⟨true, true, .ok, "b"⟩]⟩
      rfl rfl rfl (by decide) (by decide)⟩

lemma find?_updateJobs (jobs : List (String × JobState)) (id : String)
    (st' : JobState) (jid : String) :
    (updateJobs jobs id st').find? (fun p => p.1 = jid) =
      (jobs.find? (fun p => p.1 = jid)).map
        (fun p => if p.1 = id then (p.1, st') else p) := by
  unfold updateJobs
  rw [List.find?_map]
  have hpred : ((fun (p : String × JobState) => decide (p.1 = jid)) ∘
      fun p => if p.1 = id then (p.1, st') else p) =
      (fun (p : String × JobState) => decide (p.1 = jid)) := by
    funext p
    by_cases h : p.1 = id <;> simp [h, Function.comp]
  rw [hpred]

lemma find?_key {jobs : List (String × JobState)} {jid : String}
    {e : String × JobState}
    (h : jobs.find? (fun p => p.1 = jid) = some e) : e.1 = jid := by
  have := List.find?_some h
  simpa using this

/-- C4: the job state machine.  A dequeued id whose job is missing, or
whose job is neither `pending` nor `failed` (so `running`, `completed` or
`cancelled`), is skipped while the queue item is still consumed;
`cancel_job` never changes any job's `status` or `finished_at`; a
picked-up job is first transitioned to `running` (the first notified
snapshot) and always ends in one of the terminal states `completed`,
`failed`, `cancelled`; and a `pending` or `failed` job is exactly the one
a worker runs and stores back. -/
theorem C4_state_machine :
    (∀ (env : ExecEnv) (s : Service) (id : String) (rest : List String),
      s.queue = id :: rest → lookupState s.jobs id = none →
      worker_step env s = { s with queue := rest }) ∧
    (∀ (env : ExecEnv) (s : Service) (id : String) (rest : List String)
        (st : JobState),
      s.queue = id :: rest → lookupState s.jobs id = some st →
      ¬(st.job.status = JobStatus.pending ∨ st.job.status = JobStatus.failed) →
      worker_step env s = { s with queue := rest }) ∧
    (∀ (s : Service) (id : String) (now : Nat) (jid : String),
      (lookupState (cancel_job s id now).1.jobs jid).map
          (fun st => (st.job.status, st.job.finished_at)) =
        (lookupState s.jobs jid).map
          (fun st => (st.job.status, st.job.finished_at))) ∧
    (∀ (env : ExecEnv) (j : DownloadJob),
      (worker_run env j).trace.head? =
        some { j with status := JobStatus.running, updated_at := env.now }) ∧
    (∀ (env : ExecEnv) (j : DownloadJob),
      (worker_run env j).job.status = JobStatus.completed ∨
      (worker_run env j).job.status = JobStatus.failed ∨
      (worker_run env j).job.status = JobStatus.cancelled) ∧
    (∀ (env : ExecEnv) (s : Service) (id : String) (rest : List String)
        (st : JobState),
      s.queue = id :: rest → lookupState s.jobs id = some st →
      (st.job.status = JobStatus.pending ∨ st.job.status = JobStatus.failed) →
      worker_step env s =
        { s with queue := rest,
                 jobs := updateJobs s.jobs id
                   { st with job :=
                     (worker_run { env with cancelFrom := effCancelFrom st env }
                       st.job).job } }) := by
  refine ⟨?_, ?_, ?_, ?_, ?_, ?_⟩
  · intro env s id rest hq hlook
    simp [worker_step, hq, hlook]
  · intro env s id rest st hq hlook hst
    simp [worker_step, hq, hlook, hst]
  · intro s id now jid
    unfold cancel_job
    cases hlook : lookupState s.jobs id with
    | none => simp
    | some st =>
      simp only []
      unfold lookupState
      rw [find?_updateJobs]
      cases hf : s.jobs.find? (fun p => p.1 = jid) with
      | none => simp
      | some e =>
        have hkey : e.1 = jid := find?_key hf
        by_cases he : jid = id
        · subst he
          have hest : e.2 = st := by
            unfold lookupState at hlook
            rw [hf] at hlook
            simpa using hlook
          simp [hf, hkey, hest]
        · have hne : e.1 ≠ id := fun h => he (hkey ▸ h)
          simp [hf, Option.map_map, hne]
  · intro env j
    rfl
  · intro env j
    have hws : (worker_run env j).job.status =
        (match (execute_job env { j with status := JobStatus.running, updated_at := env.now }).outcome with
         | .ok => JobStatus.completed
         | .cancelled => JobStatus.cancelled
         | .jobError _ => JobStatus.failed) := by
      show (finalizeJob env.now (execute_job env { j with status := JobStatus.running, updated_at := env.now })).status = _
      rw [finalizeJob_status]
    rw [hws]
    cases (execute_job env { j with status := JobStatus.running, updated_at := env.now }).outcome
    · left; rfl
    · right; right; rfl
    · right; left; rfl
  · intro env s id rest st hq hlook hst
    simp [worker_step, hq, hlook, hst]

/-- Witness for C4: each conjunct applied at a concrete service. -/
theorem C4_state_machine_witness :
    (worker_step ⟨true, .ok ⟨none, "playlist", []⟩, none, "d", 2⟩
        ⟨[], ["missing"]⟩ = { (⟨[], ["missing"]⟩ : Service) with queue := ([] : List String) }) ∧
    ((lookupState (cancel_job ⟨[("a", ⟨mkJob "a" "spotify" "qobuz" "u" none [] "d" DownloadMode.by_artist 0, [], false⟩)], []⟩ "a" 5).1.jobs "a").map
        (fun st => (st.job.status, st.job.finished_at)) =
      (lookupState ([("a", ⟨mkJob "a" "spotify" "qobuz" "u" none [] "d" DownloadMode.by_artist 0, [], false⟩)] : List (String × JobState)) "a").map
        (fun st => (st.job.status, st.job.finished_at))) :=
  ⟨C4_state_machine.1 ⟨true, .ok ⟨none, "playlist", []⟩, none, "d", 2⟩
      ⟨[], ["missing"]⟩ "missing" [] rfl rfl,
   C4_state_machine.2.2.1 ⟨[("a", ⟨mkJob "a" "spotify" "qobuz" "u" none [] "d" DownloadMode.by_artist 0, [], false⟩)], []⟩ "a" 5 "a"⟩

/-- Sanitizing the context values changes no keys: a name misses in the
sanitized context exactly when it misses in the original one. -/
lemma lookupCtx_sanitizeCtx_none (ctx : Ctx) (name : String) :
    lookupCtx (sanitizeCtx ctx) name = none ↔ lookupCtx ctx name = none := by
  unfold lookupCtx sanitizeCtx
  rw [List.find?_map]
  have hpred : ((fun (p : String × CtxVal) => decide (p.1 = name)) ∘
      fun p => match p.2 with
        | .str s => (p.1, CtxVal.str (sanitize_component s))
        | v => (p.1, v)) = (fun (p : String × CtxVal) => decide (p.1 = name)) := by
    funext p
    obtain ⟨a, b⟩ := p
    cases b <;> simp [Function.comp]
  rw [hpred]
  cases ctx.find? (fun p => p.1 = name) <;> simp

lemma renderItem_error_missing {ctx : Ctx} {item : TmplItem} {k : String}
    (h : renderItem ctx item = .error k) : lookupCtx ctx k = none := by
  cases item with
  | lit s => simp [renderItem] at h
  | field n sp =>
    cases hl : lookupCtx ctx n with
    | none =>
      simp only [renderItem, hl] at h
      cases h
      exact hl
    | some v =>
      simp only [renderItem, hl] at h
      cases h

lemma formatTmpl_missing (ctx : Ctx) :
    ∀ (tmpl : Tmpl) (name : String) (spec : Option Nat),
    TmplItem.field name spec ∈ tmpl →
    lookupCtx ctx name = none →
    ∃ k, formatTmpl ctx tmpl = .error k ∧ lookupCtx ctx k = none := by
  intro tmpl
  induction tmpl with
  | nil => intro name spec hmem _; simp at hmem
  | cons item rest ih =>
    intro name spec hmem hmiss
    rcases List.mem_cons.mp hmem with heq | hmem'
    · refine ⟨name, ?_, hmiss⟩
      rw [← heq]
      simp only [formatTmpl, renderItem, hmiss]
    · cases hri : renderItem ctx item with
      | error k =>
        refine ⟨k, ?_, renderItem_error_missing hri⟩
        simp only [formatTmpl, hri]
      | ok s =>
        obtain ⟨k, hfmt, hk⟩ := ih name spec hmem' hmiss
        refine ⟨k, ?_, hk⟩
        simp only [formatTmpl, hri, hfmt]

/-- C7: `render_path` fails loudly whenever the template references a
field absent from the context — it returns the missing-key error
(`str.format` raising `KeyError`) and never a rendered path with the
segment silently dropped. -/
theorem C7_missing_field_fails (tmpl : Tmpl) (ctx : Ctx) (name : String)
    (spec : Option Nat) (hmem : TmplItem.field name spec ∈ tmpl)
    (hmiss : lookupCtx ctx name = none) :
    ∃ missing, render_path tmpl ctx = .error missing ∧
      lookupCtx ctx missing = none := by
  have hmiss' : lookupCtx (sanitizeCtx ctx) name = none :=
    (lookupCtx_sanitizeCtx_none ctx name).mpr hmiss
  obtain ⟨k, hfmt, hk⟩ := formatTmpl_missing (sanitizeCtx ctx) tmpl name spec hmem hmiss'
  refine ⟨k, ?_, (lookupCtx_sanitizeCtx_none ctx k).mp hk⟩
  unfold render_path
  rw [hfmt]

/-- Witness for C7: the template `"{artist}"` with an empty context. -/
theorem C7_missing_field_fails_witness :
    ∃ missing, render_path [TmplItem.field "artist" none] [] = .error missing ∧
      lookupCtx [] missing = none :=
  C7_missing_field_fails [TmplItem.field "artist" none] [] "artist" none
    (List.mem_singleton.mpr rfl) rfl

lemma orStr_ne (a : Option String) (b : String) (hb : b ≠ "") :
    orStr a b ≠ "" := by
  cases a with
  | none => simpa [orStr] using hb
  | some s =>
    by_cases h : s = ""
    · simp only [orStr, h, if_true]
      exact hb
    · simp only [orStr, if_neg h]
      exact h

/-- The playlist directory name is never empty: the fallback chain ends in
the literal `"Playlist"`. -/
lemma playlistName_ne (job : DownloadJob) : playlistName job ≠ "" :=
  orStr_ne _ _ (orStr_ne _ _ (by decide))

/-- C8: `build_track_path` puts a `playlist` entry (collection name,
falling back to the job message, falling back to `"Playlist"`) into the
render context exactly when the template references `playlist` or the job
is in single-folder mode; and when the template does not reference
`playlist` and the mode is by-artist, the sanitized playlist name is
prepended as the top-level directory segment under the download root. -/
theorem C8_playlist_placement (sm : StorageManager) (job : DownloadJob)
    (track : TrackMetadata) :
    ((tmplReferencesPlaylist (effectiveTemplate sm job) = true ∨
        job.mode = DownloadMode.single_folder) →
      lookupCtx (trackRenderCtx sm job track) "playlist" =
        some (.str (playlistName job))) ∧
    (tmplReferencesPlaylist (effectiveTemplate sm job) = false →
      job.mode = DownloadMode.by_artist →
      lookupCtx (trackRenderCtx sm job track) "playlist" = none) ∧
    (tmplReferencesPlaylist (effectiveTemplate sm job) = false →
      job.mode = DownloadMode.by_artist →
      ∀ parts,
        render_path (effectiveTemplate sm job) (trackRenderCtx sm job track) =
          .ok parts →
        build_track_path sm job track =
          .ok (sm.download_dir ++ sanitize_component (playlistName job) :: parts)) := by
  refine ⟨?_, ?_, ?_⟩
  · intro hcond
    rcases hcond with h | h <;>
      simp [trackRenderCtx, h, lookupCtx, TrackMetadata.as_context]
  · intro h1 h2
    simp [trackRenderCtx, h1, h2, lookupCtx, TrackMetadata.as_context]
  · intro h1 h2 parts hrender
    have hne := playlistName_ne job
    simp only [build_track_path, hrender, h1]
    simp [hne]

/-- Witness for C8: by-artist job, template `"{artist}"` without
`playlist`; the playlist directory is prepended under the root. -/
theorem C8_playlist_placement_witness :
    build_track_path ⟨["dl"], [TmplItem.field "artist" none]⟩
      (mkJob "j" "spotify" "qobuz" "u" none [] "d" DownloadMode.by_artist 0)
      ⟨"T", "A", "B", "u", "ISRC", 0, none, none⟩ =
      .ok (["dl"] ++ sanitize_component (playlistName
        (mkJob "j" "spotify" "qobuz" "u" none [] "d" DownloadMode.by_artist 0)) :: ["A"]) :=
  (C8_playlist_placement ⟨["dl"], [TmplItem.field "artist" none]⟩
    (mkJob "j" "spotify" "qobuz" "u" none [] "d" DownloadMode.by_artist 0)
    ⟨"T", "A", "B", "u", "ISRC", 0, none, none⟩).2.2 (by decide) rfl ["A"] (by decide)

/-- C9: the snapshot record actually declared in `app/core/models.py`
does not have the claimed field list — it lacks `mode`,
`downloaded_files` and `collection_name` and carries `logs` instead,
while the claimed list is exactly the shape `api/schemas.py::JobModel`
(and `service.py`, which reads `job.downloaded_files` and imports
`DownloadMode` from `models.py`) requires.  The checked-in `models.py` is
a stale slip the rest of the code contradicts. -/
theorem C9_snapshot_shape_mismatch :
    jobSnapshotFieldsSrc ≠ snapshotFieldsClaimed ∧
    "mode" ∉ jobSnapshotFieldsSrc ∧
    "downloaded_files" ∉ jobSnapshotFieldsSrc ∧
    "collection_name" ∉ jobSnapshotFieldsSrc ∧
    "logs" ∈ jobSnapshotFieldsSrc ∧
    snapshotFieldsClaimed = jobModelFieldsSrc := by
  refine ⟨by decide, by decide, by decide, by decide, by decide, by decide⟩

/-- C10: unknown-job-id handling is asymmetric: `get_job` returns
`none`, `list_jobs` simply omits the id, `subscribe_job` raises
`KeyError` instead of returning a channel, and `unsubscribe_job` is a
silent no-op. -/
theorem C10_unknown_id_asymmetry (s : Service) (id : String) (q : Nat)
    (hwf : ∀ p ∈ s.jobs, p.2.job.id = p.1)
    (hmiss : lookupState s.jobs id = none) :
    get_job s id = none ∧
    (∀ snap ∈ list_jobs s, snap.id ≠ id) ∧
    subscribe_job s id q = .error id ∧
    unsubscribe_job s id q = s := by
  have hfind : s.jobs.find? (fun p => p.1 = id) = none := by
    have := hmiss
    unfold lookupState at this
    exact Option.map_eq_none'.mp this
  have hall : ∀ p ∈ s.jobs, ¬(p.1 = id) := by
    intro p hp
    have := List.find?_eq_none.mp hfind p hp
    simpa using this
  refine ⟨?_, ?_, ?_, ?_⟩
  · simp [get_job, hmiss]
  · intro snap hsnap
    obtain ⟨p, hp, hsn⟩ := List.mem_map.mp hsnap
    rw [← hsn]
    rw [hwf p hp]
    exact hall p hp
  · simp [subscribe_job, hmiss]
  · simp [unsubscribe_job, hmiss]

/-- Witness for C10: a one-job registry probed with an unknown id. -/
theorem C10_unknown_id_asymmetry_witness :
    get_job ⟨[("a", ⟨mkJob "a" "spotify" "qobuz" "u" none [] "d" DownloadMode.by_artist 0, [], false⟩)], []⟩ "b" = none ∧
    (∀ snap ∈ list_jobs ⟨[("a", ⟨mkJob "a" "spotify" "qobuz" "u" none [] "d" DownloadMode.by_artist 0, [], false⟩)], []⟩,
      snap.id ≠ "b") ∧
    subscribe_job ⟨[("a", ⟨mkJob "a" "spotify" "qobuz" "u" none [] "d" DownloadMode.by_artist 0, [], false⟩)], []⟩ "b" 0 =
      .error "b" ∧
    unsubscribe_job ⟨[("a", ⟨mkJob "a" "spotify" "qobuz" "u" none [] "d" DownloadMode.by_artist 0, [], false⟩)], []⟩ "b" 0 =
      ⟨[("a", ⟨mkJob "a" "spotify" "qobuz" "u" none [] "d" DownloadMode.by_artist 0, [], false⟩)], []⟩ :=
  C10_unknown_id_asymmetry
    ⟨[("a", ⟨mkJob "a" "spotify" "qobuz" "u" none [] "d" DownloadMode.by_artist 0, [], false⟩)], []⟩
    "b" 0 (by intro p hp; simp at hp; rw [hp]; rfl) rfl
